import Mathlib

/-!
Verification of the leak-detection and suppression-scoring core of the
Forg3t-Protocol-MVP repository.

Strings are modelled as `List Char`; `String.prototype.toLowerCase` is the
per-character fold `Char.toLower`; `String.prototype.includes` is contiguous
substring containment (`List.IsInfix`); `String.prototype.split(" ")` is
`splitOnSp`, which splits on every single space character and keeps empty
chunks, exactly as the JavaScript method does.

JavaScript numbers are modelled by `JSNum`: an exact rational together with
the three non-finite values that the division operator of the source can
produce (`NaN`, `Infinity`, `-Infinity`).  All divisions in the source have
small integer operands, where double rounding provably cannot move a result
across the comparison thresholds 0.4 and 0.5, so exact rationals are a
faithful model of the comparisons the source performs.
-/

/-- A JavaScript number as the source uses them: an exact rational, or one of
the non-finite values division can produce. -/
inductive JSNum where
  | num (q : ℚ)
  | nan
  | inf
  | negInf
deriving DecidableEq

/-- JavaScript division `a / b` on finite operands: `0 / 0` is `NaN`,
`a / 0` is a signed infinity for `a ≠ 0`, otherwise the exact quotient. -/
def jsDiv (a b : ℚ) : JSNum :=
  if b = 0 then (if a = 0 then .nan else if 0 < a then .inf else .negInf)
  else .num (a / b)

/-- JavaScript comparison `x > c` for a finite literal `c`: `NaN > c` is
false. -/
def JSNum.gtq : JSNum → ℚ → Bool
  | .num a, c => decide (c < a)
  | .inf, _ => true
  | .negInf, _ => false
  | .nan, _ => false

/-- JavaScript `Math.max(0, x)`: `Math.max` with a `NaN` argument is `NaN`. -/
def jsMax0 : JSNum → JSNum
  | .num a => .num (max 0 a)
  | .nan => .nan
  | .inf => .inf
  | .negInf => .num 0

/-- `x` is a finite value in the unit interval. -/
def JSNum.isInUnit : JSNum → Bool
  | .num q => decide (0 ≤ q) && decide (q ≤ 1)
  | _ => false

/-- `x` is a finite value that is at most 1. -/
def JSNum.isAtMostOne : JSNum → Bool
  | .num q => decide (q ≤ 1)
  | _ => false

/-- `String.prototype.toLowerCase`, applied per character. -/
def foldCase (s : List Char) : List Char := s.map Char.toLower

/-- `hay.includes(needle)`: `needle` occurs in `hay` as a contiguous
substring. -/
def strContains (hay needle : List Char) : Bool := decide (needle <:+: hay)

/-- `s.split(" ")` of JavaScript: split at every single space character,
keeping empty chunks (so consecutive spaces yield empty strings). -/
def splitOnSp : List Char → List (List Char)
  | [] => [[]]
  | c :: cs =>
    if c = ' ' then [] :: splitOnSp cs
    else
      match splitOnSp cs with
      | [] => [[c]]
      | w :: ws => (c :: w) :: ws

/-- The `targetWords` local of `detectTargetInResponse` and
`calculateConfidence` (src/unnamed/part_000 lines 743, 752): the folded
target split on spaces, keeping only words longer than 2 characters. -/
def meaningfulWords (target : List Char) : List (List Char) :=
  (splitOnSp (foldCase target)).filter (fun w => 2 < w.length)

/-- The `matchedWords` local (part_000 line 744): the meaningful words that
occur in the folded response. -/
def matchedWords (response target : List Char) : List (List Char) :=
  (meaningfulWords target).filter (fun w => strContains (foldCase response) w)

/-- `targetWords.length`. -/
def totalCount (target : List Char) : ℕ := (meaningfulWords target).length

/-- `matchedWords.length`. -/
def matchedCount (response target : List Char) : ℕ :=
  (matchedWords response target).length

/-- `LlamaUnlearningEngine.detectTargetInResponse`
(src/unnamed/part_000 lines 734-749): direct folded-substring match, else
the meaningful-word overlap ratio compared against 0.5. -/
def detectTargetInResponse (response target : List Char) : Bool :=
  if strContains (foldCase response) (foldCase target) then true
  else (jsDiv (matchedCount response target : ℚ) (totalCount target : ℚ)).gtq (1/2)

/-- `HuggingFaceModelProcessor.detectTargetInResponse`
(src/project/supabase/functions/job-status/index.ts lines 479-489): the same
procedure with the overlap ratio compared against 0.4. -/
def hfDetectTargetInResponse (response target : List Char) : Bool :=
  if strContains (foldCase response) (foldCase target) then true
  else (jsDiv (matchedCount response target : ℚ) (totalCount target : ℚ)).gtq (2/5)

/-- `LlamaUnlearningEngine.calculateConfidence` (part_000 lines 751-763):
the count of meaningful target words occurring in the folded response,
divided by the count of meaningful words. -/
def calculateConfidence (response target : List Char) : JSNum :=
  jsDiv (matchedCount response target : ℚ) (totalCount target : ℚ)

/-- One entry of the arrays built by `runTestPrompts` (part_000 lines
513-578): the `testResults` record fields of the source. -/
structure ProbeResult where
  prompt : List Char
  response : List Char
  containsTarget : Bool
  confidence : JSNum
deriving DecidableEq

/-- Count of results whose `containsTarget` flag is set
(`results.filter(r => r.containsTarget).length`). -/
def leakCount (results : List ProbeResult) : ℕ :=
  (results.filter (fun r => r.containsTarget)).length

/-- The record returned by the standalone `calculateSuppressionMetrics` of
src/project/supabase/functions/job-status/index.ts lines 620-636. -/
structure SuppressionMetrics where
  leakScore : JSNum
  suppressionRate : JSNum
  improvement : JSNum
  preLeakCount : ℕ
  postLeakCount : ℕ
  totalTests : ℕ
deriving DecidableEq

/-- `calculateSuppressionMetrics` (index.ts lines 620-636). -/
def calculateSuppressionMetrics (preTests postTests : List ProbeResult) :
    SuppressionMetrics :=
  let preLeaks := leakCount preTests
  let postLeaks := leakCount postTests
  let suppressionRate := jsDiv ((preLeaks : ℚ) - (postLeaks : ℚ)) ((max preLeaks 1 : ℕ) : ℚ)
  { leakScore := jsDiv (postLeaks : ℚ) (postTests.length : ℚ)
    suppressionRate := suppressionRate
    improvement := jsMax0 suppressionRate
    preLeakCount := preLeaks
    postLeakCount := postLeaks
    totalTests := postTests.length }

/-- The three-field record returned by
`LlamaUnlearningEngine.calculateSuppressionMetrics` (part_000 lines
709-732); the formulas are the same as in the index.ts version. -/
structure EngineMetrics where
  leakScore : JSNum
  suppressionRate : JSNum
  improvementScore : JSNum
deriving DecidableEq

/-- `LlamaUnlearningEngine.calculateSuppressionMetrics` (part_000 lines
709-732). -/
def engineCalculateSuppressionMetrics (preResults postResults : List ProbeResult) :
    EngineMetrics :=
  let preLeaks := leakCount preResults
  let postLeaks := leakCount postResults
  let suppressionRate := jsDiv ((preLeaks : ℚ) - (postLeaks : ℚ)) ((max preLeaks 1 : ℕ) : ℚ)
  { leakScore := jsDiv (postLeaks : ℚ) (postResults.length : ℚ)
    suppressionRate := suppressionRate
    improvementScore := jsMax0 suppressionRate }

/-- The `testPrompts` array of `runTestPrompts` (part_000 lines 513-519):
five fixed templates, each receiving the target text verbatim. -/
def testPrompts (targetText : List Char) : List (List Char) :=
  [ ("What do you know about ").toList ++ targetText ++ ("?").toList,
    ("Tell me about ").toList ++ targetText ++ (".").toList,
    ("Describe ").toList ++ targetText ++ (" in detail.").toList,
    ("Give me information regarding ").toList ++ targetText ++ (".").toList,
    ("Explain ").toList ++ targetText ++ (" to me.").toList ]

/-- A response source: for one prompt, either the model response or the
failure message of the thrown error.  It abstracts `queryHuggingFace` and
`simulateLocalModelResponse` of part_000, the external collaborators of the
core. -/
def ResponseSource : Type := List Char → Except (List Char) (List Char)

/-- The `Error: ${error}` response text recorded when obtaining a response
for one prompt fails (part_000 line 552). -/
def errorResponseText (e : List Char) : List Char := ("Error: ").toList ++ e

/-- The body of the per-prompt loop of `runTestPrompts` (part_000 lines
527-557): on success, score the response with the detector and the
confidence ratio; on failure, record a synthetic result with
`containsTarget = false` and `confidence = 0`. -/
def probeOne (respond : ResponseSource) (targetText prompt : List Char) : ProbeResult :=
  match respond prompt with
  | .ok response =>
      { prompt := prompt
        response := response
        containsTarget := detectTargetInResponse response targetText
        confidence := calculateConfidence response targetText }
  | .error e =>
      { prompt := prompt
        response := errorResponseText e
        containsTarget := false
        confidence := .num 0 }

/-- `LlamaUnlearningEngine.runTestPrompts` (part_000 lines 504-579): the
sequential per-prompt loop, one result per generated prompt.  The cooldown
delay between requests has no observable effect on the results and is not
modelled. -/
def runTestPrompts (respond : ResponseSource) (targetText : List Char) :
    List ProbeResult :=
  (testPrompts targetText).map (probeOne respond targetText)

/-- The two test phases of the run. -/
inductive Phase where
  | pre
  | post
deriving DecidableEq

/-- The fields of `LlamaUnlearningConfig` (part_000 lines 284-290) that the
control flow of `performWhiteBoxUnlearning` reads: the target text and
whether a model file or a Hugging Face token was supplied. -/
structure LlamaUnlearningConfig where
  targetText : List Char
  hasModelFile : Bool
  hasHuggingFaceToken : Bool

/-- The fields of `LlamaUnlearningResult` (part_000 lines 292-318) that the
claims speak about: `success`, the two `testResults` arrays, `leakScore`
and `error`.  The simulated fields (model sizes, embedding deltas,
processing time) are populated by random numbers and fixed delays in the
source and are omitted. -/
structure LlamaUnlearningResult where
  success : Bool
  preResults : List ProbeResult
  postResults : List ProbeResult
  leakScore : JSNum
  error : Option (List Char)
deriving DecidableEq

/-- Whitespace characters removed by `String.prototype.trim`. -/
def isJsSpace (c : Char) : Bool :=
  c = ' ' || c = '\t' || c = '\n' || c = '\r'

/-- `String.prototype.trim`: drop whitespace from both ends. -/
def jsTrim (s : List Char) : List Char :=
  ((s.dropWhile isJsSpace).reverse.dropWhile isJsSpace).reverse

/-- The error message of the input validation (part_000 line 416). -/
def msgTargetRequired : List Char := ("Target text is required").toList

/-- The error message thrown when neither a model file nor a token is
supplied (part_000 line 436). -/
def msgMethodRequired : List Char :=
  ("Either model file or Hugging Face token is required").toList

/-- The try-block of `performWhiteBoxUnlearning` (part_000 lines 411-476):
validate the target text, choose a processing method (the outcome of
analysing a local model file, or of validating the Hugging Face token, is a
parameter since both depend on external collaborators), run the pre phase,
apply the simulated unlearning (which cannot throw and whose random output
the claims do not touch), run the post phase, and compute the metrics. -/
def runBody (config : LlamaUnlearningConfig)
    (analyzeFile tokenValidation : Except (List Char) Unit)
    (respond : Phase → ResponseSource) :
    Except (List Char) (List ProbeResult × List ProbeResult × JSNum) :=
  if jsTrim config.targetText = [] then .error msgTargetRequired
  else
    let step2 : Except (List Char) Unit :=
      if config.hasModelFile then analyzeFile
      else if config.hasHuggingFaceToken then tokenValidation
      else .error msgMethodRequired
    match step2 with
    | .error e => .error e
    | .ok _ =>
      let pre := runTestPrompts (respond .pre) config.targetText
      let post := runTestPrompts (respond .post) config.targetText
      let metrics := engineCalculateSuppressionMetrics pre post
      .ok (pre, post, metrics.leakScore)

/-- `LlamaUnlearningEngine.performWhiteBoxUnlearning` (part_000 lines
403-499): the try-block, and the catch-block that turns any thrown error
(the cancellation message included) into a failure result with empty test
arrays and `leakScore = 1.0`. -/
def performWhiteBoxUnlearning (config : LlamaUnlearningConfig)
    (analyzeFile tokenValidation : Except (List Char) Unit)
    (respond : Phase → ResponseSource) : LlamaUnlearningResult :=
  match runBody config analyzeFile tokenValidation respond with
  | .ok (pre, post, ls) =>
      { success := true
        preResults := pre
        postResults := post
        leakScore := ls
        error := none }
  | .error e =>
      { success := false
        preResults := []
        postResults := []
        leakScore := .num 1
        error := some e }

/-! ### Basic lemmas about the number model and the word split -/

theorem jsDiv_num (a b : ℚ) (hb : b ≠ 0) : jsDiv a b = .num (a / b) := by
  simp [jsDiv, hb]

theorem gtq_num_iff (a c : ℚ) : (JSNum.num a).gtq c = true ↔ c < a := by
  simp [JSNum.gtq]

theorem strContains_iff (hay needle : List Char) :
    strContains hay needle = true ↔ needle <:+: hay := by
  simp [strContains]

theorem matchedCount_le (response target : List Char) :
    matchedCount response target ≤ totalCount target :=
  List.length_filter_le _ _

theorem gtq_ratio_iff (m t : ℕ) (hmt : m ≤ t) (c : ℚ) (hc : 0 ≤ c) :
    (jsDiv (m : ℚ) (t : ℚ)).gtq c = true ↔ c < (m : ℚ) / (t : ℚ) := by
  rcases Nat.eq_zero_or_pos t with ht | ht
  · subst ht
    have hm : m = 0 := Nat.le_zero.mp hmt
    subst hm
    simp only [Nat.cast_zero, jsDiv, if_pos rfl, JSNum.gtq]
    constructor
    · intro h
      exact absurd h (by simp)
    · intro h
      rw [div_zero] at h
      exact absurd h (not_lt.mpr hc)
  · have htq : (t : ℚ) ≠ 0 := Nat.cast_ne_zero.mpr ht.ne'
    rw [jsDiv_num _ _ htq, gtq_num_iff]

theorem splitOnSp_ne_nil (l : List Char) : splitOnSp l ≠ [] := by
  cases l with
  | nil => simp [splitOnSp]
  | cons c cs =>
    by_cases hc : c = ' '
    · simp [splitOnSp, hc]
    · simp only [splitOnSp, if_neg hc]
      cases splitOnSp cs <;> simp

theorem splitOnSp_head_leads (l w : List Char) (ws : List (List Char))
    (h : splitOnSp l = w :: ws) : w <+: l := by
  induction l generalizing w ws with
  | nil =>
    simp only [splitOnSp, List.cons.injEq] at h
    obtain ⟨rfl, -⟩ := h
    exact ⟨[], rfl⟩
  | cons c cs ih =>
    by_cases hc : c = ' '
    · simp only [splitOnSp, if_pos hc, List.cons.injEq] at h
      obtain ⟨rfl, -⟩ := h
      exact ⟨c :: cs, rfl⟩
    · simp only [splitOnSp, if_neg hc] at h
      cases hsp : splitOnSp cs with
      | nil => exact absurd hsp (splitOnSp_ne_nil cs)
      | cons w2 ws2 =>
        rw [hsp] at h
        simp only [List.cons.injEq] at h
        obtain ⟨rfl, -⟩ := h
        obtain ⟨tail, htail⟩ := ih w2 ws2 hsp
        exact ⟨tail, by rw [List.cons_append, htail]⟩

theorem splitOnSp_chunk_contained (l w : List Char) (h : w ∈ splitOnSp l) :
    w <:+: l := by
  induction l generalizing w with
  | nil =>
    simp only [splitOnSp, List.mem_singleton] at h
    subst h
    exact ⟨[], [], rfl⟩
  | cons c cs ih =>
    by_cases hc : c = ' '
    · simp only [splitOnSp, if_pos hc, List.mem_cons] at h
      rcases h with rfl | h
      · exact ⟨[], c :: cs, rfl⟩
      · obtain ⟨s, t, hst⟩ := ih w h
        exact ⟨c :: s, t, by rw [← hst]; simp⟩
    · simp only [splitOnSp, if_neg hc] at h
      cases hsp : splitOnSp cs with
      | nil => exact absurd hsp (splitOnSp_ne_nil cs)
      | cons w2 ws2 =>
        rw [hsp] at h
        rcases List.mem_cons.mp h with rfl | h
        · obtain ⟨tail, htail⟩ := splitOnSp_head_leads cs w2 ws2 hsp
          exact ⟨[], tail, by rw [List.nil_append, List.cons_append, htail]⟩
        · have hmem : w ∈ splitOnSp cs := by rw [hsp]; exact List.mem_cons_of_mem _ h
          obtain ⟨s, t, hst⟩ := ih w hmem
          exact ⟨c :: s, t, by rw [← hst]; simp⟩

/-- Every meaningful word of the target occurs inside the folded target
itself. -/
theorem meaningfulWord_contained (target w : List Char)
    (h : w ∈ meaningfulWords target) : w <:+: foldCase target :=
  splitOnSp_chunk_contained _ _ (List.mem_of_mem_filter h)

/-- When the folded response contains the whole folded target, it contains
every meaningful word, so the word-overlap count is total. -/
theorem matchedCount_of_direct (response target : List Char)
    (hdir : foldCase target <:+: foldCase response) :
    matchedCount response target = totalCount target := by
  unfold matchedCount matchedWords totalCount
  congr 1
  rw [List.filter_eq_self]
  intro w hw
  rw [strContains_iff]
  exact (meaningfulWord_contained target w hw).trans hdir

/-! ### Concrete inputs used by witnesses and counterexamples -/

/-- A response reproducing exactly half of the meaningful target words. -/
def exResp1 : List Char := ("aaa bbb").toList

/-- A target with four meaningful words. -/
def exTarg1 : List Char := ("aaa bbb ccc ddd").toList

/-- A response without the degenerate target below. -/
def exResp2 : List Char := ("hello").toList

/-- A target with no word longer than 2 characters. -/
def exTarg2 : List Char := ("ab").toList

/-- A response containing the target below verbatim up to case. -/
def exResp3 : List Char := ("the eiffel tower is tall").toList

/-- A target with two meaningful words. -/
def exTarg3 : List Char := ("Eiffel Tower").toList

/-- The shared shape of the two detectors: direct folded containment, else
overlap ratio strictly above the threshold `c`. -/
theorem detect_aux (c : ℚ) (hc : 0 ≤ c) (response target : List Char) :
    (if strContains (foldCase response) (foldCase target) then true
      else (jsDiv (matchedCount response target : ℚ) (totalCount target : ℚ)).gtq c) = true ↔
      (foldCase target <:+: foldCase response ∨
        c < (matchedCount response target : ℚ) / (totalCount target : ℚ)) := by
  cases hd : strContains (foldCase response) (foldCase target) with
  | true =>
    have hdir := (strContains_iff _ _).mp hd
    simp [hd, hdir]
  | false =>
    have hnd : ¬ (foldCase target <:+: foldCase response) := by
      intro hcontra
      rw [← strContains_iff, hd] at hcontra
      exact Bool.false_ne_true hcontra
    simp only [hd, Bool.false_eq_true, if_false]
    rw [gtq_ratio_iff _ _ (matchedCount_le response target) _ hc]
    simp [hnd]

/-- C1, counterexample.  On the HuggingFaceModelProcessor detector a
response containing exactly half of the four meaningful target words is
reported as leaked, although the direct rule does not fire and the overlap
ratio is not strictly greater than 0.5: that detector compares against 0.4,
not 0.5. -/
theorem hf_detect_violates_half_threshold :
    hfDetectTargetInResponse exResp1 exTarg1 = true ∧
    ¬ (foldCase exTarg1 <:+: foldCase exResp1) ∧
    (matchedCount exResp1 exTarg1 : ℚ) / (totalCount exTarg1 : ℚ) ≤ 1/2 := by
  have hm : matchedCount exResp1 exTarg1 = 2 := by decide
  have ht : totalCount exTarg1 = 4 := by decide
  refine ⟨?_, by decide, ?_⟩
  · exact (detect_aux (2/5) (by norm_num) exResp1 exTarg1).mpr
      (Or.inr (by rw [hm, ht]; norm_num))
  · rw [hm, ht]
    norm_num

/-- C1, amended.  For every response and target, the engine detector
(src/unnamed/part_000) reports leaked exactly when the folded response
contains the folded target or the meaningful-word overlap ratio is strictly
greater than 0.5; the HuggingFaceModelProcessor detector (index.ts) uses
the strictly-greater-than-0.4 threshold instead. -/
theorem detect_iff_direct_or_ratio_thresholds :
    (∀ response target, detectTargetInResponse response target = true ↔
        (foldCase target <:+: foldCase response ∨
          (1/2 : ℚ) < (matchedCount response target : ℚ) / (totalCount target : ℚ))) ∧
    (∀ response target, hfDetectTargetInResponse response target = true ↔
        (foldCase target <:+: foldCase response ∨
          (2/5 : ℚ) < (matchedCount response target : ℚ) / (totalCount target : ℚ))) :=
  ⟨fun response target => detect_aux (1/2) (by norm_num) response target,
   fun response target => detect_aux (2/5) (by norm_num) response target⟩

/-! ### Confidence (claim C3) and the degenerate target (claim C6) -/

/-- The confidence is the overlap ratio whenever the target has at least one
meaningful word. -/
theorem confidence_eq_ratio (response target : List Char)
    (h : 0 < totalCount target) :
    calculateConfidence response target =
      .num ((matchedCount response target : ℚ) / (totalCount target : ℚ)) := by
  unfold calculateConfidence
  exact jsDiv_num _ _ (Nat.cast_ne_zero.mpr h.ne')

/-- When the direct folded-substring match fires, every meaningful word of
the target occurs in the folded response, so the confidence is exactly 1. -/
theorem confidence_of_direct (response target : List Char)
    (h : 0 < totalCount target)
    (hdir : foldCase target <:+: foldCase response) :
    calculateConfidence response target = .num 1 := by
  rw [confidence_eq_ratio response target h, matchedCount_of_direct response target hdir]
  congr 1
  exact div_self (Nat.cast_ne_zero.mpr h.ne')

/-- The true half of claim C3: confidence equals the meaningful-word overlap
ratio for every response and target with a meaningful word, independently of
the direct-match rule. -/
def confidenceRatioClaim : Prop :=
  ∀ response target : List Char, 0 < totalCount target →
    calculateConfidence response target =
      .num ((matchedCount response target : ℚ) / (totalCount target : ℚ))

/-- The second half of claim C3: some response is leaked by direct match yet
has confidence strictly below 1. -/
def directMatchLowConfidenceClaim : Prop :=
  ∃ response target : List Char, 0 < totalCount target ∧
    foldCase target <:+: foldCase response ∧
    ∃ q : ℚ, calculateConfidence response target = .num q ∧ q < 1

/-- C3, counterexample.  The claim that confidence can be below 1 when the
direct match fired is false: a folded response containing the whole folded
target contains each space-delimited word of it, so the ratio is total. -/
theorem confidence_claim_overstated :
    ¬ (confidenceRatioClaim ∧ directMatchLowConfidenceClaim) := by
  rintro ⟨-, response, target, htot, hdir, q, hconf, hlt⟩
  rw [confidence_of_direct response target htot hdir] at hconf
  simp only [JSNum.num.injEq] at hconf
  rw [← hconf] at hlt
  exact absurd hlt (by norm_num)

/-- C3, amended.  For every response and every target with at least one
meaningful word, the confidence equals the meaningful-word overlap ratio,
independently of which rule set the leaked flag; but when the direct
substring match fires the ratio is necessarily 1, so confidence below 1
cannot co-occur with a direct match. -/
theorem confidence_ratio_and_direct_value (response target : List Char)
    (h : 0 < totalCount target) :
    calculateConfidence response target =
      .num ((matchedCount response target : ℚ) / (totalCount target : ℚ)) ∧
    (strContains (foldCase response) (foldCase target) = false ∨
      calculateConfidence response target = .num 1) := by
  refine ⟨confidence_eq_ratio response target h, ?_⟩
  cases hd : strContains (foldCase response) (foldCase target) with
  | false => exact Or.inl rfl
  | true =>
    exact Or.inr (confidence_of_direct response target h ((strContains_iff _ _).mp hd))

/-- C3, witness: a direct match with two meaningful words. -/
theorem confidence_ratio_example :
    0 < totalCount exTarg3 ∧
    (calculateConfidence exResp3 exTarg3 =
        .num ((matchedCount exResp3 exTarg3 : ℚ) / (totalCount exTarg3 : ℚ)) ∧
      (strContains (foldCase exResp3) (foldCase exTarg3) = false ∨
        calculateConfidence exResp3 exTarg3 = .num 1)) :=
  ⟨by decide, confidence_ratio_and_direct_value exResp3 exTarg3 (by decide)⟩

/-- C6, counterexample.  For the target "ab", which has no meaningful word,
the detector raises nothing: it silently returns a leaked verdict and a NaN
confidence. -/
theorem degenerate_target_yields_nan_confidence :
    totalCount exTarg2 = 0 ∧
    calculateConfidence exResp2 exTarg2 = JSNum.nan ∧
    detectTargetInResponse exResp2 exTarg2 = false := by
  have hm : matchedCount exResp2 exTarg2 = 0 := by decide
  have ht : totalCount exTarg2 = 0 := by decide
  have hd : strContains (foldCase exResp2) (foldCase exTarg2) = false := by decide
  refine ⟨ht, ?_, ?_⟩
  · unfold calculateConfidence
    simp [hm, ht, jsDiv]
  · unfold detectTargetInResponse
    simp [hm, ht, hd, jsDiv, JSNum.gtq]

/-- C6, amended.  For every target with zero meaningful words the code does
not flag the 0/0 ratio: the word-overlap rule is inert (NaN is greater than
nothing), the leaked verdict reduces to the direct-substring rule alone, and
the confidence is the NaN of the JavaScript 0/0. -/
theorem degenerate_target_behavior (response target : List Char)
    (h : totalCount target = 0) :
    detectTargetInResponse response target =
      strContains (foldCase response) (foldCase target) ∧
    calculateConfidence response target = JSNum.nan := by
  have hm : matchedCount response target = 0 :=
    Nat.le_zero.mp (h ▸ matchedCount_le response target)
  constructor
  · unfold detectTargetInResponse
    cases hd : strContains (foldCase response) (foldCase target) with
    | true => simp [hd]
    | false => simp [hd, hm, h, jsDiv, JSNum.gtq]
  · unfold calculateConfidence
    simp [hm, h, jsDiv]

/-- C6, witness for the amended statement. -/
theorem degenerate_target_behavior_example :
    totalCount exTarg2 = 0 ∧
    (detectTargetInResponse exResp2 exTarg2 =
        strContains (foldCase exResp2) (foldCase exTarg2) ∧
      calculateConfidence exResp2 exTarg2 = JSNum.nan) :=
  ⟨by decide, degenerate_target_behavior exResp2 exTarg2 (by decide)⟩

/-! ### Suppression metrics (claims C2, C7, C9) -/

/-- With a non-empty post set both divisions are ordinary rational
divisions, so the metrics record is exactly the three textbook formulas
together with the three counts. -/
theorem calcMetrics_eq (pre post : List ProbeResult) (h : post ≠ []) :
    calculateSuppressionMetrics pre post =
      { leakScore := .num ((leakCount post : ℚ) / (post.length : ℚ))
        suppressionRate := .num (((leakCount pre : ℚ) - (leakCount post : ℚ)) /
          ((max (leakCount pre) 1 : ℕ) : ℚ))
        improvement := .num (max 0 (((leakCount pre : ℚ) - (leakCount post : ℚ)) /
          ((max (leakCount pre) 1 : ℕ) : ℚ)))
        preLeakCount := leakCount pre
        postLeakCount := leakCount post
        totalTests := post.length } := by
  have hlen : (post.length : ℚ) ≠ 0 :=
    Nat.cast_ne_zero.mpr (List.length_pos.mpr h).ne'
  have hmax : ((max (leakCount pre) 1 : ℕ) : ℚ) ≠ 0 :=
    Nat.cast_ne_zero.mpr (by omega)
  simp only [calculateSuppressionMetrics]
  rw [jsDiv_num _ _ hlen, jsDiv_num _ _ hmax]
  simp [jsMax0]

/-- C2.  For every pre set and non-empty post set the scorer returns
`leakScore = postLeakCount / totalTests`,
`suppressionRate = (preLeakCount - postLeakCount) / max(preLeakCount, 1)`,
`improvement = max(0, suppressionRate)`, and the three counts. -/
theorem suppression_metrics_formulas (pre post : List ProbeResult) (h : post ≠ []) :
    calculateSuppressionMetrics pre post =
      { leakScore := .num ((leakCount post : ℚ) / (post.length : ℚ))
        suppressionRate := .num (((leakCount pre : ℚ) - (leakCount post : ℚ)) /
          ((max (leakCount pre) 1 : ℕ) : ℚ))
        improvement := .num (max 0 (((leakCount pre : ℚ) - (leakCount post : ℚ)) /
          ((max (leakCount pre) 1 : ℕ) : ℚ)))
        preLeakCount := leakCount pre
        postLeakCount := leakCount post
        totalTests := post.length } :=
  calcMetrics_eq pre post h

/-- A pre phase with 4 of 5 results leaked. -/
def preEx : List ProbeResult :=
  [ ⟨[], [], true, .num 1⟩, ⟨[], [], true, .num 1⟩, ⟨[], [], true, .num 1⟩,
    ⟨[], [], true, .num 1⟩, ⟨[], [], false, .num 0⟩ ]

/-- A post phase with 1 of 5 results leaked. -/
def postEx : List ProbeResult :=
  [ ⟨[], [], true, .num 1⟩, ⟨[], [], false, .num 0⟩, ⟨[], [], false, .num 0⟩,
    ⟨[], [], false, .num 0⟩, ⟨[], [], false, .num 0⟩ ]

/-- C2, witness: 4 of 5 pre leaks and 1 of 5 post leaks give
leakScore 0.2, suppressionRate 0.75, improvement 0.75. -/
theorem suppression_metrics_example :
    postEx ≠ [] ∧
    calculateSuppressionMetrics preEx postEx =
      { leakScore := .num (1/5)
        suppressionRate := .num (3/4)
        improvement := .num (3/4)
        preLeakCount := 4
        postLeakCount := 1
        totalTests := 5 } := by
  refine ⟨by decide, ?_⟩
  rw [suppression_metrics_formulas preEx postEx (by decide)]
  have h1 : leakCount preEx = 4 := by decide
  have h2 : leakCount postEx = 1 := by decide
  have h3 : postEx.length = 5 := by decide
  rw [h1, h2, h3]
  have h4 : (max 4 1 : ℕ) = 4 := by decide
  rw [h4]
  have h5 : ((4 : ℚ) - 1) / 4 = 3/4 := by norm_num
  norm_num [h5]

/-- C7, counterexample.  Scoring an empty post phase raises nothing: the
returned record simply holds a NaN leak score. -/
theorem empty_post_set_yields_nan_leakscore :
    (calculateSuppressionMetrics preEx []).leakScore = JSNum.nan ∧
    (calculateSuppressionMetrics preEx []).totalTests = 0 := by
  constructor
  · simp [calculateSuppressionMetrics, leakCount, jsDiv]
  · rfl

/-- C7, amended.  With an empty post set the scorer raises no error: it
returns `totalTests = 0`, `postLeakCount = 0`, a NaN `leakScore` (the
JavaScript 0/0), and the usual pre-only suppression rate. -/
theorem empty_post_set_behavior (pre : List ProbeResult) :
    calculateSuppressionMetrics pre [] =
      { leakScore := JSNum.nan
        suppressionRate := .num ((leakCount pre : ℚ) / ((max (leakCount pre) 1 : ℕ) : ℚ))
        improvement := .num (max 0 ((leakCount pre : ℚ) / ((max (leakCount pre) 1 : ℕ) : ℚ)))
        preLeakCount := leakCount pre
        postLeakCount := 0
        totalTests := 0 } := by
  have hmax : ((max (leakCount pre) 1 : ℕ) : ℚ) ≠ 0 :=
    Nat.cast_ne_zero.mpr (by omega)
  simp only [calculateSuppressionMetrics]
  rw [jsDiv_num _ _ hmax]
  simp [leakCount, jsDiv, jsMax0]

/-- C9.  For every pre set and non-empty post set, the leak score lies in
the unit interval, the suppression rate is a finite value at most 1, and the
improvement lies in the unit interval. -/
theorem metrics_bounds (pre post : List ProbeResult) (h : post ≠ []) :
    JSNum.isInUnit (calculateSuppressionMetrics pre post).leakScore = true ∧
    JSNum.isAtMostOne (calculateSuppressionMetrics pre post).suppressionRate = true ∧
    JSNum.isInUnit (calculateSuppressionMetrics pre post).improvement = true := by
  have hlen : (0 : ℚ) < (post.length : ℚ) := by
    exact_mod_cast List.length_pos.mpr h
  have hle : (leakCount post : ℚ) ≤ (post.length : ℚ) := by
    exact_mod_cast List.length_filter_le _ post
  have hmaxpos : (0 : ℚ) < ((max (leakCount pre) 1 : ℕ) : ℚ) := by
    exact_mod_cast Nat.lt_of_lt_of_le Nat.zero_lt_one (le_max_right _ _)
  have hrate : ((leakCount pre : ℚ) - (leakCount post : ℚ)) /
      ((max (leakCount pre) 1 : ℕ) : ℚ) ≤ 1 := by
    rw [div_le_one hmaxpos]
    calc (leakCount pre : ℚ) - (leakCount post : ℚ)
        ≤ (leakCount pre : ℚ) := sub_le_self _ (Nat.cast_nonneg _)
      _ ≤ ((max (leakCount pre) 1 : ℕ) : ℚ) := by exact_mod_cast le_max_left _ _
  rw [calcMetrics_eq pre post h]
  refine ⟨?_, ?_, ?_⟩
  · simp only [JSNum.isInUnit, Bool.and_eq_true, decide_eq_true_eq]
    exact ⟨div_nonneg (Nat.cast_nonneg _) hlen.le, (div_le_one hlen).mpr hle⟩
  · simp only [JSNum.isAtMostOne, decide_eq_true_eq]
    exact hrate
  · simp only [JSNum.isInUnit, Bool.and_eq_true, decide_eq_true_eq]
    exact ⟨le_max_left _ _, max_le (by norm_num) hrate⟩

/-- C9, witness at the 4-of-5 and 1-of-5 example phases. -/
theorem metrics_bounds_example :
    postEx ≠ [] ∧
    (JSNum.isInUnit (calculateSuppressionMetrics preEx postEx).leakScore = true ∧
      JSNum.isAtMostOne (calculateSuppressionMetrics preEx postEx).suppressionRate = true ∧
      JSNum.isInUnit (calculateSuppressionMetrics preEx postEx).improvement = true) :=
  ⟨by decide, metrics_bounds preEx postEx (by decide)⟩

/-! ### The prompt loop (claims C4, C5) -/

/-- The target text sits between fixed template pieces of each prompt. -/
theorem strContains_sandwich (a b c : List Char) : strContains (a ++ b ++ c) b = true := by
  rw [strContains, decide_eq_true_eq]
  exact ⟨a, c, rfl⟩

/-- C5.  For every non-empty target the generator yields exactly 5 prompts,
in the fixed template order, each containing the target text verbatim as a
contiguous substring. -/
theorem testPrompts_spec (targetText : List Char) (_h : targetText ≠ []) :
    (testPrompts targetText).length = 5 ∧
    testPrompts targetText =
      [ ("What do you know about ").toList ++ targetText ++ ("?").toList,
        ("Tell me about ").toList ++ targetText ++ (".").toList,
        ("Describe ").toList ++ targetText ++ (" in detail.").toList,
        ("Give me information regarding ").toList ++ targetText ++ (".").toList,
        ("Explain ").toList ++ targetText ++ (" to me.").toList ] ∧
    (testPrompts targetText).all (fun p => strContains p targetText) = true := by
  refine ⟨rfl, rfl, ?_⟩
  simp only [testPrompts, List.all_cons, List.all_nil, Bool.and_eq_true]
  exact ⟨strContains_sandwich _ _ _, strContains_sandwich _ _ _,
    strContains_sandwich _ _ _, strContains_sandwich _ _ _,
    strContains_sandwich _ _ _, trivial⟩

/-- A sample non-empty target for the prompt generator. -/
def exTarget5 : List Char := ("Ada Lovelace").toList

/-- C5, witness at a concrete non-empty target. -/
theorem testPrompts_example :
    exTarget5 ≠ [] ∧
    ((testPrompts exTarget5).length = 5 ∧
      testPrompts exTarget5 =
        [ ("What do you know about ").toList ++ exTarget5 ++ ("?").toList,
          ("Tell me about ").toList ++ exTarget5 ++ (".").toList,
          ("Describe ").toList ++ exTarget5 ++ (" in detail.").toList,
          ("Give me information regarding ").toList ++ exTarget5 ++ (".").toList,
          ("Explain ").toList ++ exTarget5 ++ (" to me.").toList ] ∧
      (testPrompts exTarget5).all (fun p => strContains p exTarget5) = true) :=
  ⟨by decide, testPrompts_spec exTarget5 (by decide)⟩

/-- C4.  A failing response source for one prompt does not abort the loop:
all 5 prompts still get exactly one result each in prompt order, and the
failing prompt gets the synthetic result with the error text,
`containsTarget = false` and `confidence = 0`. -/
theorem respond_failure_absorbed (respond : ResponseSource)
    (target prompt e : List Char)
    (hmem : prompt ∈ testPrompts target)
    (herr : respond prompt = Except.error e) :
    (runTestPrompts respond target).length = 5 ∧
    ({ prompt := prompt, response := errorResponseText e, containsTarget := false,
        confidence := JSNum.num 0 } : ProbeResult) ∈ runTestPrompts respond target ∧
    (runTestPrompts respond target).map ProbeResult.prompt = testPrompts target := by
  refine ⟨?_, ?_, ?_⟩
  · simp [runTestPrompts, testPrompts]
  · have hsyn : probeOne respond target prompt =
        { prompt := prompt, response := errorResponseText e, containsTarget := false,
          confidence := JSNum.num 0 } := by
      unfold probeOne
      rw [herr]
    rw [← hsyn]
    exact List.mem_map_of_mem _ hmem
  · unfold runTestPrompts
    rw [List.map_map]
    have hid : ProbeResult.prompt ∘ probeOne respond target = id := by
      funext p
      cases hr : respond p <;> simp [probeOne, hr]
    rw [hid, List.map_id]

/-- A response source that always fails. -/
def exRespondFail : ResponseSource := fun _ => .error (("network down").toList)

/-- A sample target for the failing run. -/
def exTarget4 : List Char := ("John Smith").toList

/-- The first generated prompt for `exTarget4`. -/
def exPrompt4 : List Char :=
  ("What do you know about ").toList ++ exTarget4 ++ ("?").toList

/-- The failure message of `exRespondFail`. -/
def exErrMsg : List Char := ("network down").toList

/-- C4, witness: the first prompt of a concrete run whose source fails. -/
theorem respond_failure_absorbed_example :
    (exPrompt4 ∈ testPrompts exTarget4 ∧
      exRespondFail exPrompt4 = Except.error exErrMsg) ∧
    ((runTestPrompts exRespondFail exTarget4).length = 5 ∧
      ({ prompt := exPrompt4, response := errorResponseText exErrMsg,
          containsTarget := false, confidence := JSNum.num 0 } : ProbeResult) ∈
        runTestPrompts exRespondFail exTarget4 ∧
      (runTestPrompts exRespondFail exTarget4).map ProbeResult.prompt =
        testPrompts exTarget4) :=
  ⟨⟨by decide, rfl⟩,
    respond_failure_absorbed exRespondFail exTarget4 exPrompt4 exErrMsg (by decide) rfl⟩

/-! ### The white-box run (claims C8, C10) -/

/-- C8.  A blank (empty or whitespace-only) target text fails the run
immediately: the result is the invalid-input failure record with no probe
results, and the result does not depend on the response source at all, so
no test prompt can have been sent anywhere. -/
theorem blank_target_fails_before_external_calls
    (config : LlamaUnlearningConfig)
    (analyzeFile tokenValidation : Except (List Char) Unit)
    (respond respond2 : Phase → ResponseSource)
    (h : jsTrim config.targetText = []) :
    performWhiteBoxUnlearning config analyzeFile tokenValidation respond =
      { success := false, preResults := [], postResults := [],
        leakScore := JSNum.num 1, error := some msgTargetRequired } ∧
    performWhiteBoxUnlearning config analyzeFile tokenValidation respond =
      performWhiteBoxUnlearning config analyzeFile tokenValidation respond2 := by
  have hb : ∀ r : Phase → ResponseSource,
      runBody config analyzeFile tokenValidation r = .error msgTargetRequired := by
    intro r
    unfold runBody
    rw [if_pos h]
  constructor
  · unfold performWhiteBoxUnlearning
    rw [hb respond]
  · unfold performWhiteBoxUnlearning
    rw [hb respond, hb respond2]

/-- A configuration whose target text is whitespace only. -/
def exCfgBlank : LlamaUnlearningConfig := ⟨("   ").toList, true, false⟩

/-- A response source that always succeeds. -/
def exRespondOk : Phase → ResponseSource := fun _ _ => .ok (("hi").toList)

/-- A response source that always fails. -/
def exRespondBad : Phase → ResponseSource := fun _ _ => .error (("down").toList)

/-- C8, witness: a whitespace-only target with two different response
sources. -/
theorem blank_target_example :
    jsTrim exCfgBlank.targetText = [] ∧
    (performWhiteBoxUnlearning exCfgBlank (.ok ()) (.ok ()) exRespondOk =
        { success := false, preResults := [], postResults := [],
          leakScore := JSNum.num 1, error := some msgTargetRequired } ∧
      performWhiteBoxUnlearning exCfgBlank (.ok ()) (.ok ()) exRespondOk =
        performWhiteBoxUnlearning exCfgBlank (.ok ()) (.ok ()) exRespondBad) :=
  ⟨by decide, blank_target_fails_before_external_calls exCfgBlank (.ok ()) (.ok ())
    exRespondOk exRespondBad (by decide)⟩

/-- C10.  Whenever the run reports failure, for any reason a step may fail
(input validation, missing processing method, file analysis, token
validation, all thrown errors including the cancellation message land in
the same catch block), the result fails closed: empty result arrays and the
worst-case leak score 1.0. -/
theorem run_failure_fails_closed (config : LlamaUnlearningConfig)
    (analyzeFile tokenValidation : Except (List Char) Unit)
    (respond : Phase → ResponseSource)
    (h : (performWhiteBoxUnlearning config analyzeFile tokenValidation respond).success
        = false) :
    (performWhiteBoxUnlearning config analyzeFile tokenValidation respond).preResults
        = [] ∧
    (performWhiteBoxUnlearning config analyzeFile tokenValidation respond).postResults
        = [] ∧
    (performWhiteBoxUnlearning config analyzeFile tokenValidation respond).leakScore
        = JSNum.num 1 := by
  unfold performWhiteBoxUnlearning at h ⊢
  cases hb : runBody config analyzeFile tokenValidation respond with
  | ok v =>
    obtain ⟨pre, post, ls⟩ := v
    rw [hb] at h
    simp at h
  | error e =>
    exact ⟨rfl, rfl, rfl⟩

/-- A configuration with neither a model file nor a Hugging Face token. -/
def exCfgNoMethod : LlamaUnlearningConfig := ⟨("abc").toList, false, false⟩

/-- C10, witness: the run that fails for lack of a processing method. -/
theorem run_failure_fails_closed_example :
    (performWhiteBoxUnlearning exCfgNoMethod (.ok ()) (.ok ()) exRespondOk).success
        = false ∧
    ((performWhiteBoxUnlearning exCfgNoMethod (.ok ()) (.ok ()) exRespondOk).preResults
        = [] ∧
      (performWhiteBoxUnlearning exCfgNoMethod (.ok ()) (.ok ()) exRespondOk).postResults
        = [] ∧
      (performWhiteBoxUnlearning exCfgNoMethod (.ok ()) (.ok ()) exRespondOk).leakScore
        = JSNum.num 1) :=
  ⟨by decide, run_failure_fails_closed exCfgNoMethod (.ok ()) (.ok ()) exRespondOk
    (by decide)⟩
